import Mathlib

/-!
Verification model of the `agoda-scraper` repository.

The development shallowly embeds the orchestration logic of
`src/scraper.py` (`AgodaScraper.scrape_hotel`, `AgodaScraper.scrape_multiple`)
and `src/utils.py` (`save_data`).

Browser effects are abstracted as data:
* each call of `page.query_data(INDIVIDUAL_REVIEWS_QUERY)` inside the
  collection loop of `scrape_hotel` (scraper.py:194) either raises or
  returns a list of reviews; the successive outcomes form a list of
  `PageResult` values, consumed in order;
* `_click_next_page` (scraper.py:142-163) succeeds exactly when a further
  page outcome remains in that list, and fails (returns False) when the
  list is exhausted;
* `navigate`/`scrape_hotel` as called from `scrape_multiple`
  (scraper.py:256) is abstracted as an environment function from the
  resolved URL to `Except Unit (ScrapeResult α)`: `Except.error` models the
  exception that `navigate` raises after exhausting its retries, caught by
  the `except` block at scraper.py:259.

Review items themselves are opaque (`α`); the `overall_statistics` field of
the result dict (scraper.py:180-185, 219) is independent of every claim and
is not modelled.
-/

namespace AgodaModel

/-- Outcome of one `page.query_data(INDIVIDUAL_REVIEWS_QUERY)` call at
scraper.py:194: `ok rs` is a successful query returning the review list
`rs` (possibly empty), `err` is a raised exception (caught at
scraper.py:212). -/
inductive PageResult (α : Type) where
  | ok (reviews : List α)
  | err
deriving DecidableEq

/-- The `while len(all_reviews) < max_reviews` loop of
`AgodaScraper.scrape_hotel` (scraper.py:191-214).  Input: the remaining
page outcomes and the accumulator `all_reviews`.  Output: the final
`all_reviews` list, the number of item-query calls issued, and the number
of `_click_next_page` calls made.  Mirrors the source iteration order:
check the loop condition, query the page, break on exception
(scraper.py:212-214), break on an empty review list (scraper.py:197-199),
extend the accumulator (scraper.py:201), break once the quota is reached
(scraper.py:204-205), click to the next page and break if that fails
(scraper.py:207-209). -/
def collectLoop {α : Type} (quota : Nat) :
    List (PageResult α) → List α → List α × Nat × Nat
  | [], acc => (acc, 0, 0)
  | PageResult.err :: _, acc =>
      if quota ≤ acc.length then (acc, 0, 0) else (acc, 1, 0)
  | PageResult.ok [] :: _, acc =>
      if quota ≤ acc.length then (acc, 0, 0) else (acc, 1, 0)
  | PageResult.ok (r :: rs) :: rest, acc =>
      if quota ≤ acc.length then (acc, 0, 0)
      else
        let acc2 := acc ++ r :: rs
        if quota ≤ acc2.length then (acc2, 1, 0)
        else
          match rest with
          | [] => (acc2, 1, 1)
          | _ :: _ =>
              let t := collectLoop quota rest acc2
              (t.1, t.2.1 + 1, t.2.2 + 1)

/-- The separator string `" - "` used at scraper.py:170, as a character
list. -/
def sepChars : List Char := [Char.ofNat 32, Char.ofNat 45, Char.ofNat 32]

/-- Split a character list at the first occurrence of `sep`: returns
`some (before, after)` when `sep` occurs, `none` otherwise.  This is the
semantics of Python's `title.split(sep)[0]` (the `before` component) and
of the containment test `sep in title` (`isSome`), both used at
scraper.py:170. -/
def splitAtSep (sep : List Char) : List Char → Option (List Char × List Char)
  | [] => if sep.isEmpty then some ([], []) else none
  | c :: cs =>
      if sep.isPrefixOf (c :: cs) then some ([], (c :: cs).drop sep.length)
      else
        match splitAtSep sep cs with
        | some (b, a) => some (c :: b, a)
        | none => none

/-- scraper.py:170: `self.page.title().split(" - ")[0] if " - " in
self.page.title() else "Unknown Hotel"`. -/
def hotelNameOfTitle (title : String) : String :=
  match splitAtSep sepChars title.data with
  | some (b, _) => String.mk b
  | none => "Unknown Hotel"

/-- The dict returned by `scrape_hotel` (scraper.py:216-222), minus the
claim-irrelevant `overall_statistics` field. -/
structure ScrapeResult (α : Type) where
  hotel_name : String
  hotel_url : String
  total_reviews_scraped : Nat
  reviews : List α
deriving DecidableEq

/-- `AgodaScraper.scrape_hotel` (scraper.py:165-222) with the page title
and the item-query outcomes supplied as data: compute the hotel name from
the title (line 170), run the collection loop (lines 188-214), and build
the result dict (lines 216-222), where `total_reviews_scraped` is
`len(all_reviews)` and `reviews` is `all_reviews[:max_reviews]`. -/
def scrape_hotel {α : Type} (title url : String) (pages : List (PageResult α))
    (max_reviews : Nat) : ScrapeResult α :=
  let all_reviews := (collectLoop max_reviews pages []).1
  { hotel_name := hotelNameOfTitle title
    hotel_url := url
    total_reviews_scraped := all_reviews.length
    reviews := all_reviews.take max_reviews }

/-- Reviews delivered by the successful queries of a page sequence, up to
(excluding) the first empty or failing page: exactly the items the
collection loop can ever see, since an empty page and a query exception
both end pagination. -/
def availItems {α : Type} : List (PageResult α) → List α
  | [] => []
  | PageResult.err :: _ => []
  | PageResult.ok [] :: _ => []
  | PageResult.ok (r :: rs) :: rest => (r :: rs) ++ availItems rest

/-- `true` iff no page outcome in the list is a raised exception. -/
def allOk {α : Type} : List (PageResult α) → Bool
  | [] => true
  | PageResult.err :: _ => false
  | PageResult.ok _ :: rest => allOk rest

/-- `true` iff every page outcome is a successful query returning at least
one review. -/
def allOkNonempty {α : Type} : List (PageResult α) → Bool
  | [] => true
  | PageResult.ok (_ :: _) :: rest => allOkNonempty rest
  | _ => false

/-- All reviews carried by the `ok` outcomes of a page list, in order. -/
def itemsOf {α : Type} : List (PageResult α) → List α
  | [] => []
  | PageResult.ok rs :: rest => rs ++ itemsOf rest
  | PageResult.err :: rest => itemsOf rest

/-- A page outcome that terminates the collection loop without
contributing items: a raised query exception or an empty review list. -/
def stopper {α : Type} : PageResult α → Bool
  | PageResult.err => true
  | PageResult.ok [] => true
  | PageResult.ok (_ :: _) => false

/-- Observable actions of the `scrape_multiple` loop (scraper.py:246-264):
`attempt u` is a call of `self.scrape_hotel(u, ...)` (line 256) on the
resolved URL `u`, `save b` is a call of `save_data(results, ...)` (line
258) persisting the batch `b`. -/
inductive Event (α : Type) where
  | attempt (url : String)
  | save (batch : List (ScrapeResult α))
deriving DecidableEq

/-- Python's `url.startswith("/")` (scraper.py:251): the first character
of the string is a slash. -/
def startsWithSlash (url : String) : Bool :=
  match url.data with
  | [] => false
  | c :: _ => c == Char.ofNat 47

/-- Link resolution of scraper.py:251-252: prefix the site origin when the
link is site-relative, otherwise pass it through unchanged. -/
def resolveLink (url : String) : String :=
  if startsWithSlash url then ("https://www.agoda.com") ++ url else url

/-- The `for i, hotel in enumerate(target_hotels)` loop of
`AgodaScraper.scrape_multiple` (scraper.py:246-264).  Each listing record
is reduced to its `hotel.get("hotel_link")` value (`Option String`);
`none` and the empty string are the Python-falsy links skipped by
`if not url: continue` (scraper.py:248-249).  `env` abstracts the call
`self.scrape_hotel(url, ...)` (line 256): `Except.error` is the exception
(e.g. `navigate` failing after all retries) caught by the `except` block
at scraper.py:259, which logs and continues with the next record.  On
success the result is appended to `results` and the whole batch is handed
to `save_data` (scraper.py:257-258).  Returns the final `results` list
together with the chronological event trace; the inter-target sleep
(scraper.py:262-263) has no observable effect and is not modelled. -/
def processHotels {α : Type} (env : String → Except Unit (ScrapeResult α)) :
    List (Option String) → List (ScrapeResult α) →
      List (ScrapeResult α) × List (Event α)
  | [], results => (results, [])
  | none :: rest, results => processHotels env rest results
  | some url :: rest, results =>
      if url = ("") then processHotels env rest results
      else
        match env (resolveLink url) with
        | Except.error _ =>
            let t := processHotels env rest results
            (t.1, Event.attempt (resolveLink url) :: t.2)
        | Except.ok data =>
            let results2 := results ++ [data]
            let t := processHotels env rest results2
            (t.1, Event.attempt (resolveLink url) :: Event.save results2 :: t.2)

/-- `AgodaScraper.scrape_multiple` (scraper.py:224-265) from the point
where the hotel list has been queried: truncate the discovered records to
`max_hotels` (`hotels_list[:max_hotels]`, scraper.py:244) and run the
per-record loop starting from an empty batch. -/
def scrape_multiple {α : Type} (env : String → Except Unit (ScrapeResult α))
    (hotels_list : List (Option String)) (max_hotels : Nat) :
    List (ScrapeResult α) × List (Event α) :=
  processHotels env (hotels_list.take max_hotels) []

/-- The batches handed to `save_data`, in chronological order. -/
def saveBatches {α : Type} : List (Event α) → List (List (ScrapeResult α))
  | [] => []
  | Event.save b :: rest => b :: saveBatches rest
  | Event.attempt _ :: rest => saveBatches rest

/-- The results the environment yields for the processed records of a
listing slice, in order: skipped records and failing targets contribute
nothing. -/
def successResults {α : Type} (env : String → Except Unit (ScrapeResult α)) :
    List (Option String) → List (ScrapeResult α)
  | [] => []
  | none :: rest => successResults env rest
  | some url :: rest =>
      if url = ("") then successResults env rest
      else
        match env (resolveLink url) with
        | Except.error _ => successResults env rest
        | Except.ok d => d :: successResults env rest

/-- The successive batches obtained by appending the elements of a list to
`res` one at a time. -/
def batchPrefixes {R : Type} (res : List R) : List R → List (List R)
  | [] => []
  | d :: rest => (res ++ [d]) :: batchPrefixes (res ++ [d]) rest

/-- `true` iff the trace never opens with a save: saves only ever follow
the attempt that produced their last entry. -/
def headNotSave {α : Type} : List (Event α) → Bool
  | Event.save _ :: _ => false
  | _ => true

/-- `true` iff every save in the trace immediately follows an attempt. -/
def goodTrace {α : Type} : List (Event α) → Bool
  | [] => true
  | Event.save _ :: _ => false
  | Event.attempt _ :: [] => true
  | Event.attempt _ :: Event.save _ :: rest => goodTrace rest
  | Event.attempt _ :: Event.attempt u :: rest =>
      goodTrace (Event.attempt u :: rest)

/-- State of the directory around one destination path of `save_data`
(utils.py:18-31): the content of the destination file and of the
temporary sibling `filename + ".tmp"` (utils.py:20); `none` means the
file does not exist.  File contents are byte lists. -/
structure SinkState where
  dest : Option (List Nat)
  tmp : Option (List Nat)
deriving DecidableEq

/-- The successive directory states a successful `save_data(data,
filename)` run passes through, byte by byte: `open(temp_file, "w")` and
`json.dump(data, f, ...)` (utils.py:22-23) grow the temporary file from
empty to the full serialized content while the destination is untouched;
then `os.replace(temp_file, filename)` (utils.py:24) installs the
complete content at the destination and removes the temporary file in one
atomic step.  A crash mid-write leaves the directory in one of these
states. -/
def saveDataTrace (init : SinkState) (content : List Nat) : List SinkState :=
  ((List.range (content.length + 1)).map
    (fun k => { dest := init.dest, tmp := some (content.take k) })) ++
  [{ dest := some content, tmp := none }]

/-- Failure injected into one `save_data` run: `serializeRaise k` makes
`json.dump` raise after writing `k` bytes of the temporary file,
`renameRaise` makes `os.replace` raise. -/
inductive SaveFailure where
  | serializeRaise (written : Nat)
  | renameRaise
deriving DecidableEq

/-- `save_data` (utils.py:18-31) as a state transformer with an injected
failure.  `none` is the happy path: the temporary file is written and
`os.replace` installs it at the destination.  Under either failure the
`except Exception` block (utils.py:27-31) runs: it logs the error, removes
the temporary file if it exists, and then falls off the end of the
function — there is no `raise` in it, so the exception component of the
returned pair, the exception propagating past `save_data` to its caller,
is `none` in every case. -/
def save_data (init : SinkState) (content : List Nat)
    (failure : Option SaveFailure) : SinkState × Option SaveFailure :=
  match failure with
  | none => ({ dest := some content, tmp := none }, none)
  | some (SaveFailure.serializeRaise _) => ({ dest := init.dest, tmp := none }, none)
  | some SaveFailure.renameRaise => ({ dest := init.dest, tmp := none }, none)

/-- Unfolding equation for `collectLoop` on a nonempty successful page. -/
theorem collectLoop_cons_cons {α : Type} (quota : Nat) (r : α) (rs : List α)
    (rest : List (PageResult α)) (acc : List α) :
    collectLoop quota (PageResult.ok (r :: rs) :: rest) acc =
      if quota ≤ acc.length then (acc, 0, 0)
      else if quota ≤ (acc ++ r :: rs).length then (acc ++ r :: rs, 1, 0)
      else
        match rest with
        | [] => (acc ++ r :: rs, 1, 1)
        | _ :: _ =>
            ((collectLoop quota rest (acc ++ r :: rs)).1,
             (collectLoop quota rest (acc ++ r :: rs)).2.1 + 1,
             (collectLoop quota rest (acc ++ r :: rs)).2.2 + 1) := by
  rfl

/-- Capped at the quota, the reviews accumulated by the collection loop are
exactly the reviews available before the first empty or failing page. -/
theorem collect_min {α : Type} (quota : Nat) :
    ∀ (pages : List (PageResult α)) (acc : List α),
      min quota ((collectLoop quota pages acc).1.length) =
        min quota (acc.length + (availItems pages).length)
  | [], acc => by simp [collectLoop, availItems]
  | PageResult.err :: rest, acc => by
      by_cases h : quota ≤ acc.length <;>
        simp [collectLoop, availItems, h]
  | PageResult.ok [] :: rest, acc => by
      by_cases h : quota ≤ acc.length <;>
        simp [collectLoop, availItems, h]
  | PageResult.ok (r :: rs) :: rest, acc => by
      rw [collectLoop_cons_cons]
      by_cases h1 : quota ≤ acc.length
      · rw [if_pos h1, min_eq_left h1,
          min_eq_left (le_trans h1 (Nat.le_add_right _ _))]
      · rw [if_neg h1]
        by_cases h2 : quota ≤ (acc ++ r :: rs).length
        · rw [if_pos h2, min_eq_left h2]
          have h3 : quota ≤ acc.length + (availItems (PageResult.ok (r :: rs) :: rest)).length := by
            refine le_trans h2 ?_
            simp [availItems]
          rw [min_eq_left h3]
        · rw [if_neg h2]
          match rest with
          | [] =>
              simp [availItems]
          | p :: ps =>
              have ih := collect_min quota (p :: ps) (acc ++ r :: rs)
              simp only [availItems] at ih ⊢
              simp only [List.length_append] at ih ⊢
              omega

/-- C1 fails as stated: with quota 1 and a single page carrying two
reviews, `total_reviews_scraped` records 2 (the full accumulator, line
220) while the returned `reviews` list is truncated to 1 element (line
221). -/
theorem c1_total_neq_len_counterexample :
    ¬ ((scrape_hotel (α := Nat) ("t") ("u") [PageResult.ok [0, 1]] 1).total_reviews_scraped
        = (scrape_hotel (α := Nat) ("t") ("u") [PageResult.ok [0, 1]] 1).reviews.length) := by
  decide

/-- C1 (amended): `total_reviews_scraped` records the length of the full
accumulated review list, the returned `reviews` list has length
`min quota total_reviews_scraped`, and the two counts agree exactly when
the accumulated total does not overshoot the quota — in particular they
can differ when the last page pushes the accumulator past the quota. -/
theorem c1_total_counts_accumulator {α : Type} (title url : String)
    (pages : List (PageResult α)) (quota : Nat) :
    (scrape_hotel title url pages quota).total_reviews_scraped
        = (collectLoop quota pages ([] : List α)).1.length
  ∧ (scrape_hotel title url pages quota).reviews.length
        = min quota (scrape_hotel title url pages quota).total_reviews_scraped
  ∧ ((scrape_hotel title url pages quota).total_reviews_scraped ≤ quota →
      (scrape_hotel title url pages quota).total_reviews_scraped
        = (scrape_hotel title url pages quota).reviews.length) := by
  refine ⟨rfl, ?_, ?_⟩
  · simp [scrape_hotel]
  · intro h
    simp [scrape_hotel] at h ⊢
    omega

/-- Concrete instance of the amended C1: quota 5, pages of 2 and 1 reviews,
no overshoot, so the recorded total equals the returned length. -/
theorem c1_total_counts_accumulator_witness :
    (scrape_hotel (α := Nat) ("t") ("u") [PageResult.ok [0, 1], PageResult.ok [2]] 5).total_reviews_scraped
      = (scrape_hotel (α := Nat) ("t") ("u") [PageResult.ok [0, 1], PageResult.ok [2]] 5).reviews.length :=
  (c1_total_counts_accumulator ("t") ("u") [PageResult.ok [0, 1], PageResult.ok [2]] 5).2.2
    (by decide)

/-- C2: for every quota and every error-free page sequence, the returned
`reviews` list has length `min quota (available items)` — the items the
queries can yield before the first empty page — and never exceeds the
quota. -/
theorem c2_reviews_length_min {α : Type} (title url : String) (quota : Nat)
    (pages : List (PageResult α)) (h : allOk pages = true) :
    (scrape_hotel title url pages quota).reviews.length
        = min quota (availItems pages).length
  ∧ (scrape_hotel title url pages quota).reviews.length ≤ quota := by
  constructor
  · have hm := collect_min quota pages ([] : List α)
    simp only [List.length_nil, Nat.zero_add] at hm
    simp [scrape_hotel, hm]
  · simp [scrape_hotel]

/-- Concrete instance of C2: quota 2 over pages of sizes 2 and 1 yields
exactly `min 2 3 = 2` reviews. -/
theorem c2_reviews_length_min_witness :
    (scrape_hotel (α := Nat) ("t") ("u") [PageResult.ok [0, 1], PageResult.ok [2]] 2).reviews.length
        = min 2 (availItems [PageResult.ok [0, 1], PageResult.ok [2]]).length
  ∧ (scrape_hotel (α := Nat) ("t") ("u") [PageResult.ok [0, 1], PageResult.ok [2]] 2).reviews.length ≤ 2 :=
  c2_reviews_length_min ("t") ("u") 2 [PageResult.ok [0, 1], PageResult.ok [2]] (by decide)

/-- Running the collection loop over pages that each return at least one
review, followed by a terminating page (empty or failing), when the quota
is not yet exhausted: the loop accumulates exactly the earlier pages'
reviews, issues one query per page including the terminating one, and
clicks the next-page control once per non-terminating page — never past
the terminating page. -/
theorem collect_reaches_stop {α : Type} (quota : Nat) (p : PageResult α)
    (hp : stopper p = true) :
    ∀ (ps rest : List (PageResult α)) (acc : List α),
      allOkNonempty ps = true →
      acc.length + (itemsOf ps).length < quota →
      collectLoop quota (ps ++ p :: rest) acc =
        (acc ++ itemsOf ps, ps.length + 1, ps.length)
  | [], rest, acc, _, hlt => by
      simp only [itemsOf, List.length_nil, Nat.add_zero] at hlt
      have h1 : ¬ quota ≤ acc.length := Nat.not_le.mpr hlt
      cases p with
      | err => simp [collectLoop, itemsOf, h1]
      | ok rs =>
          cases rs with
          | nil => simp [collectLoop, itemsOf, h1]
          | cons a as => simp [stopper] at hp
  | PageResult.err :: ps2, rest, acc, hok, hlt => by
      simp [allOkNonempty] at hok
  | PageResult.ok [] :: ps2, rest, acc, hok, hlt => by
      simp [allOkNonempty] at hok
  | PageResult.ok (r :: rs) :: ps2, rest, acc, hok, hlt => by
      simp only [allOkNonempty] at hok
      simp only [itemsOf, List.length_append, List.length_cons] at hlt
      have h1 : ¬ quota ≤ acc.length := by omega
      have h2 : ¬ quota ≤ (acc ++ r :: rs).length := by
        simp only [List.length_append, List.length_cons]
        omega
      have hlt2 : (acc ++ r :: rs).length + (itemsOf ps2).length < quota := by
        simp only [List.length_append, List.length_cons]
        omega
      have ih := collect_reaches_stop quota p hp ps2 rest (acc ++ r :: rs) hok hlt2
      obtain ⟨y, ys, hyy⟩ : ∃ y ys, ps2 ++ p :: rest = y :: ys := by
        cases ps2 with
        | nil => exact ⟨p, rest, rfl⟩
        | cons a as => exact ⟨a, as ++ p :: rest, rfl⟩
      rw [List.cons_append, collectLoop_cons_cons, if_neg h1, if_neg h2]
      rw [hyy] at ih ⊢
      simp only [ih]
      simp [itemsOf, List.append_assoc]

/-- C6: if the first N-1 pages each yield at least one review, the quota
is not yet reached, and the Nth query returns zero items, the loop stops
exactly after accumulating pages 1..N-1: it returns their reviews, issues
exactly N queries (so no query ever touches the pages in `rest`), and
attempts exactly N-1 next-page advances — regardless of the remaining
quota and of whatever `rest` would have offered. -/
theorem c6_pagination_stops {α : Type} (title url : String) (quota : Nat)
    (ps rest : List (PageResult α))
    (hok : allOkNonempty ps = true) (hq : (itemsOf ps).length < quota) :
    collectLoop quota (ps ++ PageResult.ok [] :: rest) ([] : List α) =
        (itemsOf ps, ps.length + 1, ps.length)
  ∧ (scrape_hotel title url (ps ++ PageResult.ok [] :: rest) quota).reviews
        = itemsOf ps := by
  have hstop := collect_reaches_stop quota (PageResult.ok []) (by rfl) ps rest
    ([] : List α) hok (by simpa using hq)
  simp only [List.nil_append] at hstop
  refine ⟨hstop, ?_⟩
  simp only [scrape_hotel, hstop]
  exact List.take_of_length_le (Nat.le_of_lt hq)

/-- Concrete instance of C6: two one-review pages then an empty page under
quota 10; the loop returns both reviews, issues 3 queries and 2 clicks,
and never reaches the nonempty page behind the empty one. -/
theorem c6_pagination_stops_witness :
    collectLoop 10 ([PageResult.ok [0], PageResult.ok [1]] ++ PageResult.ok [] :: [PageResult.ok [7]]) ([] : List Nat)
        = (itemsOf [PageResult.ok [0], PageResult.ok [1]], 2 + 1, 2)
  ∧ (scrape_hotel ("t") ("u") ([PageResult.ok [0], PageResult.ok [1]] ++ PageResult.ok [] :: [PageResult.ok [7]]) 10).reviews
        = itemsOf [PageResult.ok (([0] : List Nat)), PageResult.ok [1]] :=
  c6_pagination_stops ("t") ("u") 10 [PageResult.ok [0], PageResult.ok [1]]
    [PageResult.ok [7]] (by decide) (by decide)

/-- C7: if a query raises mid-collection (after N-1 productive pages,
quota not yet reached), `scrape_hotel` treats it as end of pagination: it
issues no further query (exactly N queries), and still returns a finalized
result holding everything gathered so far — a normal value, not an
exception. -/
theorem c7_error_partial_result {α : Type} (title url : String) (quota : Nat)
    (ps rest : List (PageResult α))
    (hok : allOkNonempty ps = true) (hq : (itemsOf ps).length < quota) :
    scrape_hotel title url (ps ++ PageResult.err :: rest) quota =
      { hotel_name := hotelNameOfTitle title
        hotel_url := url
        total_reviews_scraped := (itemsOf ps).length
        reviews := itemsOf ps }
  ∧ (collectLoop quota (ps ++ PageResult.err :: rest) ([] : List α)).2.1
        = ps.length + 1 := by
  have hstop := collect_reaches_stop quota (PageResult.err) (by rfl) ps rest
    ([] : List α) hok (by simpa using hq)
  simp only [List.nil_append] at hstop
  constructor
  · simp only [scrape_hotel, hstop]
    rw [List.take_of_length_le (Nat.le_of_lt hq)]
  · rw [hstop]

/-- Concrete instance of C7: one two-review page, then a raising query,
then an unreachable page, quota 9: the result is a normal record holding
the two gathered reviews and exactly 2 queries were issued. -/
theorem c7_error_partial_result_witness :
    scrape_hotel ("Grand Hotel - Agoda") ("u") ([PageResult.ok [4, 5]] ++ PageResult.err :: [PageResult.ok [7]]) 9 =
      { hotel_name := hotelNameOfTitle ("Grand Hotel - Agoda")
        hotel_url := ("u")
        total_reviews_scraped := (itemsOf [PageResult.ok (([4, 5] : List Nat))]).length
        reviews := itemsOf [PageResult.ok [4, 5]] }
  ∧ (collectLoop 9 ([PageResult.ok [4, 5]] ++ PageResult.err :: [PageResult.ok [7]]) ([] : List Nat)).2.1
        = 1 + 1 :=
  c7_error_partial_result ("Grand Hotel - Agoda") ("u") 9 [PageResult.ok [4, 5]]
    [PageResult.ok [7]] (by decide) (by decide)

/-- The crawl loop appends exactly the successful results to the batch it
was given, and hands the sink exactly the successive extended batches. -/
theorem processHotels_spec {α : Type} (env : String → Except Unit (ScrapeResult α)) :
    ∀ (hl : List (Option String)) (res : List (ScrapeResult α)),
      (processHotels env hl res).1 = res ++ successResults env hl
    ∧ saveBatches (processHotels env hl res).2 =
        batchPrefixes res (successResults env hl)
  | [], res => by
      simp [processHotels, successResults, batchPrefixes, saveBatches]
  | none :: rest, res => by
      simpa [processHotels, successResults] using processHotels_spec env rest res
  | some url :: rest, res => by
      by_cases hu : url = ("")
      · simpa [processHotels, successResults, hu] using
          processHotels_spec env rest res
      · rcases henv : env (resolveLink url) with e | d
        · have ih := processHotels_spec env rest res
          simp [processHotels, successResults, hu, henv, saveBatches, ih.1, ih.2]
        · have ih := processHotels_spec env rest (res ++ [d])
          simp [processHotels, successResults, hu, henv, saveBatches,
            batchPrefixes, ih.1, ih.2]

/-- `batchPrefixes res l` is the family of batches `res ++ l.take (i+1)`
for `i` ranging over the positions of `l`. -/
theorem batchPrefixes_eq_map {R : Type} :
    ∀ (l : List R) (res : List R),
      batchPrefixes res l =
        (List.range l.length).map (fun i => res ++ l.take (i + 1))
  | [], res => by simp [batchPrefixes]
  | d :: rest, res => by
      rw [batchPrefixes, batchPrefixes_eq_map rest (res ++ [d])]
      simp [List.range_succ_eq_map, List.map_map, Function.comp,
        List.take_succ_cons, List.append_assoc]

/-- Every trace the crawl loop produces is well formed: no save appears
except immediately after the attempt that completed its last entry. -/
theorem processHotels_goodTrace {α : Type}
    (env : String → Except Unit (ScrapeResult α)) :
    ∀ (hl : List (Option String)) (res : List (ScrapeResult α)),
      goodTrace (processHotels env hl res).2 = true
    ∧ headNotSave (processHotels env hl res).2 = true
  | [], res => by simp [processHotels, goodTrace, headNotSave]
  | none :: rest, res => by
      simpa [processHotels] using processHotels_goodTrace env rest res
  | some url :: rest, res => by
      by_cases hu : url = ("")
      · simpa [processHotels, hu] using processHotels_goodTrace env rest res
      · rcases henv : env (resolveLink url) with e | d
        · have ih := processHotels_goodTrace env rest res
          simp only [processHotels, hu, henv, if_neg hu]
          refine ⟨?_, by simp [headNotSave]⟩
          rcases ht : (processHotels env rest res).2 with _ | ⟨ev, es⟩
          · simp [goodTrace]
          · cases ev with
            | attempt v =>
                have hg := ih.1
                rw [ht] at hg
                simpa [goodTrace] using hg
            | save b =>
                have hh := ih.2
                rw [ht] at hh
                simp [headNotSave] at hh
        · have ih := processHotels_goodTrace env rest (res ++ [d])
          simp [processHotels, hu, henv, goodTrace, headNotSave, ih.1]

/-- Every attempt in a crawl trace is resolved on the spot: an attempt
not directly followed by a save is a failed target, while an attempt
directly followed by a save is a completed target whose result is
checkpointed at once — the persisted batch extends the batches saved so
far by exactly the result this attempt produced, before any further
event occurs. -/
theorem processHotels_attempt_resolved {α : Type}
    (env : String → Except Unit (ScrapeResult α)) :
    ∀ (hl : List (Option String)) (res : List (ScrapeResult α))
      (pre : List (Event α)) (u : String) (post : List (Event α)),
      (processHotels env hl res).2 = pre ++ Event.attempt u :: post →
      (headNotSave post = true → env u = Except.error ())
    ∧ (∀ b post2, post = Event.save b :: post2 →
        ∃ d, env u = Except.ok d
          ∧ b = res ++ (successResults env hl).take ((saveBatches pre).length + 1)
          ∧ b.getLast? = some d)
  | [], res, pre, u, post, htr => by
      simp [processHotels] at htr
  | none :: rest, res, pre, u, post, htr => by
      have ih := processHotels_attempt_resolved env rest res pre u post
        (by simpa [processHotels] using htr)
      simpa [successResults] using ih
  | some url :: rest, res, pre, u, post, htr => by
      by_cases hu : url = ("")
      · subst hu
        have ih := processHotels_attempt_resolved env rest res pre u post
          (by simpa [processHotels] using htr)
        simpa [successResults] using ih
      · rcases henv : env (resolveLink url) with e | d
        · have htr2 : Event.attempt (resolveLink url) ::
              (processHotels env rest res).2 = pre ++ Event.attempt u :: post := by
            simpa [processHotels, hu, henv] using htr
          cases pre with
          | nil =>
              simp only [List.nil_append, List.cons.injEq,
                Event.attempt.injEq] at htr2
              obtain ⟨rfl, rfl⟩ := htr2
              constructor
              · intro _
                cases e
                exact henv
              · intro b post2 hpost
                have hh := (processHotels_goodTrace env rest res).2
                rw [hpost] at hh
                simp [headNotSave] at hh
          | cons ev pre2 =>
              simp only [List.cons_append, List.cons.injEq] at htr2
              obtain ⟨rfl, htr3⟩ := htr2
              have ih := processHotels_attempt_resolved env rest res pre2 u post
                htr3
              refine ⟨ih.1, ?_⟩
              intro b post2 hpost
              obtain ⟨d0, hd1, hd2, hd3⟩ := ih.2 b post2 hpost
              refine ⟨d0, hd1, ?_, hd3⟩
              rw [hd2]
              simp [successResults, hu, henv, saveBatches]
        · have htr2 : Event.attempt (resolveLink url) ::
              Event.save (res ++ [d]) ::
              (processHotels env rest (res ++ [d])).2 =
                pre ++ Event.attempt u :: post := by
            simpa [processHotels, hu, henv] using htr
          cases pre with
          | nil =>
              simp only [List.nil_append, List.cons.injEq,
                Event.attempt.injEq] at htr2
              obtain ⟨rfl, rfl⟩ := htr2
              constructor
              · intro hhead
                simp [headNotSave] at hhead
              · intro b post2 hpost
                simp only [List.cons.injEq, Event.save.injEq] at hpost
                obtain ⟨hb, -⟩ := hpost
                subst hb
                exact ⟨d, henv,
                  by simp [successResults, hu, henv, saveBatches],
                  List.getLast?_concat _⟩
          | cons ev pre2 =>
              simp only [List.cons_append, List.cons.injEq] at htr2
              obtain ⟨rfl, htr3⟩ := htr2
              cases pre2 with
              | nil => simp at htr3
              | cons ev2 pre3 =>
                  simp only [List.cons_append, List.cons.injEq] at htr3
                  obtain ⟨rfl, htr4⟩ := htr3
                  have ih := processHotels_attempt_resolved env rest (res ++ [d])
                    pre3 u post htr4
                  refine ⟨ih.1, ?_⟩
                  intro b post2 hpost
                  obtain ⟨d0, hd1, hd2, hd3⟩ := ih.2 b post2 hpost
                  refine ⟨d0, hd1, ?_, hd3⟩
                  rw [hd2]
                  simp [successResults, hu, henv, saveBatches,
                    List.take_succ_cons, List.cons_append, List.append_assoc]

/-- C8: in `scrape_multiple`, with `k` targets completing extraction, the
sink is invoked exactly `k` times, the `i`-th invocation persisting
exactly the batch of the first `i` completed results; every save sits
immediately after an attempt; and every attempt is resolved before the
crawl moves on — an attempt not directly followed by a save is a failed
target, while a completed target's attempt is directly followed by the
save checkpointing the accumulated batch extended with exactly its
result, so the batch is persisted before the next target is processed,
not only at the end of the run. -/
theorem c8_save_after_each {α : Type}
    (env : String → Except Unit (ScrapeResult α))
    (hl : List (Option String)) (m : Nat) :
    saveBatches (scrape_multiple env hl m).2 =
      (List.range (scrape_multiple env hl m).1.length).map
        (fun i => (scrape_multiple env hl m).1.take (i + 1))
  ∧ goodTrace (scrape_multiple env hl m).2 = true
  ∧ ∀ (pre : List (Event α)) (u : String) (post : List (Event α)),
      (scrape_multiple env hl m).2 = pre ++ Event.attempt u :: post →
      (headNotSave post = true → env u = Except.error ())
    ∧ (∀ b post2, post = Event.save b :: post2 →
        ∃ d, env u = Except.ok d
          ∧ b = (scrape_multiple env hl m).1.take ((saveBatches pre).length + 1)
          ∧ b.getLast? = some d) := by
  have hs := processHotels_spec env (hl.take m) ([] : List (ScrapeResult α))
  have hg := processHotels_goodTrace env (hl.take m) ([] : List (ScrapeResult α))
  refine ⟨?_, hg.1, ?_⟩
  · simp only [scrape_multiple, hs.2, batchPrefixes_eq_map, hs.1,
      List.nil_append]
  · intro pre u post htr
    have h := processHotels_attempt_resolved env (hl.take m)
      ([] : List (ScrapeResult α)) pre u post
      (by simpa [scrape_multiple] using htr)
    refine ⟨h.1, ?_⟩
    intro b post2 hpost
    obtain ⟨d, hd1, hd2, hd3⟩ := h.2 b post2 hpost
    refine ⟨d, hd1, ?_, hd3⟩
    rw [hd2]
    simp [scrape_multiple, hs.1]

/-- Concrete instance of C8: with targets a (succeeds), b (raises) and c
(succeeds), the attempt of b sits between the two checkpoints and is not
directly followed by a save, so the theorem forces it to be a failed
target. -/
theorem c8_save_after_each_witness :
    (fun u =>
      if u = ("a") then
        Except.ok ({ hotel_name := ("h1"), hotel_url := ("a"),
                     total_reviews_scraped := 0,
                     reviews := ([] : List Nat) } : ScrapeResult Nat)
      else if u = ("b") then Except.error ()
      else Except.ok { hotel_name := ("h3"), hotel_url := ("c"),
                       total_reviews_scraped := 0, reviews := [] })
      ("b") = Except.error () :=
  ((c8_save_after_each
      (fun u =>
        if u = ("a") then
          Except.ok ({ hotel_name := ("h1"), hotel_url := ("a"),
                       total_reviews_scraped := 0,
                       reviews := ([] : List Nat) } : ScrapeResult Nat)
        else if u = ("b") then Except.error ()
        else Except.ok { hotel_name := ("h3"), hotel_url := ("c"),
                         total_reviews_scraped := 0, reviews := [] })
      [some ("a"), some ("b"), some ("c")] 3).2.2
    [Event.attempt ("a"),
     Event.save [{ hotel_name := ("h1"), hotel_url := ("a"),
                   total_reviews_scraped := 0, reviews := [] }]]
    ("b")
    [Event.attempt ("c"),
     Event.save [{ hotel_name := ("h1"), hotel_url := ("a"),
                   total_reviews_scraped := 0, reviews := [] },
                 { hotel_name := ("h3"), hotel_url := ("c"),
                   total_reviews_scraped := 0, reviews := [] }]]
    (by decide)).1 (by decide)

/-- C5: when the environment completes targets 1 and 3 but raises on
target 2 (navigation failing after all retries), `scrape_multiple` over
the three listing records returns the batch `[r1, r3]` in processing
order — the failure is caught in the loop and does not abort the run. -/
theorem c5_batch_resilience {α : Type}
    (env : String → Except Unit (ScrapeResult α)) (u1 u2 u3 : String)
    (r1 r3 : ScrapeResult α)
    (h1 : env (resolveLink u1) = Except.ok r1)
    (h2 : env (resolveLink u2) = Except.error ())
    (h3 : env (resolveLink u3) = Except.ok r3)
    (n1 : ¬ u1 = (""))
    (n2 : ¬ u2 = (""))
    (n3 : ¬ u3 = ("")) :
    (scrape_multiple env [some u1, some u2, some u3] 3).1 = [r1, r3] := by
  simp [scrape_multiple, processHotels, n1, n2, n3, h1, h2, h3]

/-- Concrete instance of C5: three listing records where the middle target
raises; the batch holds exactly the first and third results. -/
theorem c5_batch_resilience_witness :
    (scrape_multiple
      (fun u =>
        if u = ("a") then
          Except.ok { hotel_name := ("h1"), hotel_url := ("a"),
                      total_reviews_scraped := 0, reviews := ([] : List Nat) }
        else if u = ("b") then Except.error ()
        else Except.ok { hotel_name := ("h3"), hotel_url := ("c"),
                         total_reviews_scraped := 0, reviews := ([] : List Nat) })
      [some ("a"), some ("b"), some ("c")] 3).1 =
      [{ hotel_name := ("h1"), hotel_url := ("a"),
         total_reviews_scraped := 0, reviews := ([] : List Nat) },
       { hotel_name := ("h3"), hotel_url := ("c"),
         total_reviews_scraped := 0, reviews := ([] : List Nat) }] :=
  c5_batch_resilience _ ("a") ("b") ("c") _ _ rfl rfl rfl
    (by decide) (by decide) (by decide)

/-- C9: the crawl loop skips a record whose link is missing or empty
without processing it, rewrites a link beginning with a slash by
prefixing the site origin before attempting it, and passes any other link
through to the extraction call unchanged. -/
theorem c9_link_resolution {α : Type}
    (env : String → Except Unit (ScrapeResult α)) (url : String)
    (rest : List (Option String)) (res : List (ScrapeResult α)) :
    processHotels env (none :: rest) res = processHotels env rest res
  ∧ processHotels env (some ("") :: rest) res = processHotels env rest res
  ∧ (¬ url = ("") → startsWithSlash url = true →
      (processHotels env (some url :: rest) res).2.head? =
        some (Event.attempt (("https://www.agoda.com") ++ url)))
  ∧ (¬ url = ("") → startsWithSlash url = false →
      (processHotels env (some url :: rest) res).2.head? =
        some (Event.attempt url)) := by
  refine ⟨by simp [processHotels], by simp [processHotels], ?_, ?_⟩
  · intro hu hs
    rcases henv : env (("https://www.agoda.com") ++ url) with e | d <;>
      simp [processHotels, hu, henv, resolveLink, hs]
  · intro hu hs
    rcases henv : env url with e | d <;>
      simp [processHotels, hu, henv, resolveLink, hs]

/-- Concrete instance of C9: a missing link is skipped, `/x` is attempted
as `https://www.agoda.com/x`, and the absolute link `y` is attempted
unchanged. -/
theorem c9_link_resolution_witness :
    processHotels (fun _ => Except.error ()) (none :: []) ([] : List (ScrapeResult Nat)) =
      processHotels (fun _ => Except.error ()) [] []
  ∧ (processHotels (fun _ => Except.error ()) (some ("/x") :: []) ([] : List (ScrapeResult Nat))).2.head? =
      some (Event.attempt (("https://www.agoda.com") ++ ("/x")))
  ∧ (processHotels (fun _ => Except.error ()) (some ("y") :: []) ([] : List (ScrapeResult Nat))).2.head? =
      some (Event.attempt ("y")) :=
  ⟨(c9_link_resolution (fun _ => Except.error ()) ("/x") [] []).1,
   (c9_link_resolution (fun _ => Except.error ()) ("/x") [] []).2.2.1
      (by decide) (by decide),
   (c9_link_resolution (fun _ => Except.error ()) ("y") [] []).2.2.2
      (by decide) (by decide)⟩

/-- C3: at every state a `save_data` run passes through — so also under a
crash at any point — the destination holds either its previous content or
the new complete content, never a truncation; and a completed run leaves
the new content installed with the temporary file gone. -/
theorem c3_atomic_replace (init : SinkState) (content : List Nat) :
    (∀ s, s ∈ saveDataTrace init content →
        s.dest = init.dest ∨ s.dest = some content)
  ∧ (saveDataTrace init content).getLast? =
      some { dest := some content, tmp := none } := by
  constructor
  · intro s hs
    rcases List.mem_append.mp hs with hmap | hfin
    · rcases List.mem_map.mp hmap with ⟨k, _, rfl⟩
      exact Or.inl rfl
    · rw [List.mem_singleton.mp hfin]
      exact Or.inr rfl
  · exact List.getLast?_concat _

/-- Concrete instance of C3: a mid-write state of saving `[7, 8]` over a
destination holding `[5]` still shows `[5]` at the destination. -/
theorem c3_atomic_replace_witness :
    ({ dest := some [5], tmp := some [7] } : SinkState).dest = some ([5] : List Nat)
  ∨ ({ dest := some [5], tmp := some [7] } : SinkState).dest = some ([7, 8] : List Nat) :=
  (c3_atomic_replace { dest := some [5], tmp := none } [7, 8]).1
    { dest := some [5], tmp := some [7] } (by decide)

/-- C4 fails as stated: at a concrete rename failure, `save_data` removes
the temporary file but propagates no exception — the error is absorbed by
the `except` block (utils.py:27-31), not raised past `save_data`. -/
theorem c4_error_swallowed_counterexample :
    (save_data { dest := none, tmp := none } [0, 1]
        (some SaveFailure.renameRaise)).2 = none
  ∧ (save_data { dest := none, tmp := none } [0, 1]
        (some SaveFailure.renameRaise)).1.tmp = none := by
  decide

/-- C4 (amended): whenever serialization or the rename fails inside
`save_data`, the temporary file is removed if it exists, the destination
is left at its previous content, and the error is logged and absorbed —
`save_data` returns normally and no exception reaches the caller. -/
theorem c4_cleanup_without_raise (init : SinkState) (content : List Nat)
    (f : SaveFailure) :
    (save_data init content (some f)).1.tmp = none
  ∧ (save_data init content (some f)).1.dest = init.dest
  ∧ (save_data init content (some f)).2 = none := by
  cases f <;> exact ⟨rfl, rfl, rfl⟩

/-- `List.isPrefixOf` decides the existence of a completing suffix. -/
theorem isPrefixOfChar_iff (l1 l2 : List Char) :
    l1.isPrefixOf l2 = true ↔ ∃ t, l1 ++ t = l2 := by
  rw [ List.isPrefixOf_iff_prefix]
  exact Iff.rfl

/-- When `splitAtSep` finds the separator, the returned `before` part is
the text preceding an occurrence of `sep`, and it is shortest among all
decompositions — i.e. the occurrence split at is the first one. -/
theorem splitAtSep_some {sep : List Char} (hne : ¬ sep = []) :
    ∀ (l b a : List Char), splitAtSep sep l = some (b, a) →
      l = b ++ sep ++ a ∧
      ∀ b2 a2, l = b2 ++ sep ++ a2 → b.length ≤ b2.length
  | [], b, a, hsplit => by
      simp [splitAtSep, List.isEmpty_iff, hne] at hsplit
  | c :: cs, b, a, hsplit => by
      rw [splitAtSep] at hsplit
      by_cases hpre : sep.isPrefixOf (c :: cs)
      · rw [if_pos hpre] at hsplit
        obtain ⟨t, ht⟩ := (isPrefixOfChar_iff sep (c :: cs)).mp hpre
        injection hsplit with hba
        injection hba with hb ha
        subst hb
        subst ha
        constructor
        · rw [List.nil_append, ← ht, List.drop_left]
        · intro b2 a2 _
          exact Nat.zero_le _
      · rw [if_neg hpre] at hsplit
        rcases hc : splitAtSep sep cs with _ | ⟨b0, a0⟩
        · rw [hc] at hsplit
          exact absurd hsplit (by simp)
        · rw [hc] at hsplit
          injection hsplit with hba
          injection hba with hb ha
          subst hb
          subst ha
          obtain ⟨heq, hmin⟩ := splitAtSep_some hne cs b0 a0 hc
          constructor
          · rw [List.cons_append, List.cons_append, ← heq]
          · intro b2 a2 h2
            cases b2 with
            | nil =>
                exfalso
                apply hpre
                refine (isPrefixOfChar_iff sep (c :: cs)).mpr ⟨a2, ?_⟩
                simp only [List.nil_append] at h2
                rw [h2]
            | cons x b3 =>
                simp only [List.cons_append, List.cons.injEq] at h2
                simpa using hmin b3 a2 h2.2

/-- When `splitAtSep` finds no separator, no decomposition of the input
around `sep` exists at all. -/
theorem splitAtSep_none {sep : List Char} (hne : ¬ sep = []) :
    ∀ (l : List Char), splitAtSep sep l = none →
      ∀ b2 a2, ¬ l = b2 ++ sep ++ a2
  | [], _, b2, a2, h2 => by
      cases sep with
      | nil => exact hne rfl
      | cons s ss => simp at h2
  | c :: cs, hsplit, b2, a2, h2 => by
      rw [splitAtSep] at hsplit
      by_cases hpre : sep.isPrefixOf (c :: cs)
      · rw [if_pos hpre] at hsplit
        exact absurd hsplit (by simp)
      · rw [if_neg hpre] at hsplit
        rcases hc : splitAtSep sep cs with _ | ⟨b0, a0⟩
        · cases b2 with
          | nil =>
              apply hpre
              refine (isPrefixOfChar_iff sep (c :: cs)).mpr ⟨a2, ?_⟩
              simp only [List.nil_append] at h2
              rw [h2]
          | cons x b3 =>
              simp only [List.cons_append, List.cons.injEq] at h2
              exact splitAtSep_none hne cs hc b3 a2 h2.2
        · rw [hc] at hsplit
          exact absurd hsplit (by simp)

/-- C10: the result of `scrape_hotel` stores the target URL unchanged as
`hotel_url`; its `hotel_name` is the part of the page title before the
first occurrence of the separator `" - "` when the title contains it
(shortest prefix among all decompositions), and the literal string
`"Unknown Hotel"` when the title has no such decomposition. -/
theorem c10_hotel_name_title {α : Type} (title url : String)
    (pages : List (PageResult α)) (quota : Nat) :
    (scrape_hotel title url pages quota).hotel_url = url
  ∧ (∀ b a, splitAtSep sepChars title.data = some (b, a) →
      (scrape_hotel title url pages quota).hotel_name = String.mk b
      ∧ title.data = b ++ sepChars ++ a
      ∧ ∀ b2 a2, title.data = b2 ++ sepChars ++ a2 → b.length ≤ b2.length)
  ∧ (splitAtSep sepChars title.data = none →
      (scrape_hotel title url pages quota).hotel_name = ("Unknown Hotel")
      ∧ ∀ b2 a2, ¬ title.data = b2 ++ sepChars ++ a2) := by
  have hne : ¬ sepChars = [] := by simp [sepChars]
  refine ⟨rfl, ?_, ?_⟩
  · intro b a hsplit
    obtain ⟨heq, hmin⟩ := splitAtSep_some hne title.data b a hsplit
    refine ⟨?_, heq, hmin⟩
    simp [scrape_hotel, hotelNameOfTitle, hsplit]
  · intro hsplit
    refine ⟨?_, splitAtSep_none hne title.data hsplit⟩
    simp [scrape_hotel, hotelNameOfTitle, hsplit]

/-- Concrete instance of C10: the title `"Grand Hotel - Agoda"` yields the
hotel name `"Grand Hotel"` and the URL is stored unchanged. -/
theorem c10_hotel_name_title_witness :
    (scrape_hotel ("Grand Hotel - Agoda") ("u") ([] : List (PageResult Nat)) 5).hotel_url = ("u")
  ∧ (scrape_hotel ("Grand Hotel - Agoda") ("u") ([] : List (PageResult Nat)) 5).hotel_name
      = String.mk (("Grand Hotel").data) :=
  ⟨(c10_hotel_name_title ("Grand Hotel - Agoda") ("u") ([] : List (PageResult Nat)) 5).1,
   ((c10_hotel_name_title ("Grand Hotel - Agoda") ("u") ([] : List (PageResult Nat)) 5).2.1
      (("Grand Hotel").data) (("Agoda").data) (by decide)).1⟩

end AgodaModel
